import Mathlib

/-!
Verification of the blog-generator request handler.

The source is a single Python module (`src/lambda/lambda_handler.py`).  We
embed its pure helpers (`build_prompt`, `clean_llama_output`) directly as
functions on `List Char`, and the effectful pieces (`generate_blog`,
`save_to_s3`, `lambda_handler`) as functions parameterised by the outcomes of
the external collaborators (the generation service and the blob store), with
the store threaded as explicit state and the externally visible calls recorded
as booleans.
-/

namespace BlogGen

/-- Characters removed by the Python method `str.strip()` (ASCII whitespace). -/
def isPyWhitespace (c : Char) : Bool :=
  c = ' ' || c = '\t' || c = '\n' || c = '\x0b' || c = '\x0c' || c = '\r'

/-- Remove leading whitespace, the left half of the Python method `str.strip()`. -/
def lstrip : List Char → List Char
  | [] => []
  | c :: cs => if isPyWhitespace c then lstrip cs else c :: cs

/-- Remove trailing whitespace, the right half of the Python method `str.strip()`. -/
def rstrip (l : List Char) : List Char := (lstrip l.reverse).reverse

/-- The Python method `str.strip()`: drop whitespace from both ends. -/
def pyStrip (l : List Char) : List Char := rstrip (lstrip l)

/-- One left-to-right pass of `re.sub(r"</?s>", "", ·)`: at each position the
regex removes `</s>` or `<s>` and continues after the match. -/
def removeSTokens : List Char → List Char
  | '<' :: '/' :: 's' :: '>' :: rest => removeSTokens rest
  | '<' :: 's' :: '>' :: rest => removeSTokens rest
  | c :: rest => c :: removeSTokens rest
  | [] => []

/-- One left-to-right pass of `re.sub(r"\[/?INST\]", "", ·)`: at each position
the regex removes `[/INST]` or `[INST]` and continues after the match. -/
def removeInstTokens : List Char → List Char
  | '[' :: '/' :: 'I' :: 'N' :: 'S' :: 'T' :: ']' :: rest => removeInstTokens rest
  | '[' :: 'I' :: 'N' :: 'S' :: 'T' :: ']' :: rest => removeInstTokens rest
  | c :: rest => c :: removeInstTokens rest
  | [] => []

/-- Replacement text emitted for a maximal run of `n` newlines by
`re.sub(r"\n\x7b3,\x7d", "\n\n", ·)`: runs of three or more newlines become
exactly two, shorter runs are kept. -/
def emitNl (n : Nat) : List Char :=
  if 3 ≤ n then ['\n', '\n'] else List.replicate n '\n'

/-- Scanner for the newline-collapsing substitution; `pending` counts the
newlines of the run currently being read. -/
def collapseAux : Nat → List Char → List Char
  | pending, [] => emitNl pending
  | pending, '\n' :: rest => collapseAux (pending + 1) rest
  | pending, c :: rest => emitNl pending ++ c :: collapseAux 0 rest

/-- The substitution `re.sub(r"\n\x7b3,\x7d", "\n\n", ·)` from
`clean_llama_output`. -/
def collapseNl (l : List Char) : List Char := collapseAux 0 l

/-- Embedding of `clean_llama_output`: remove `<s>`/`</s>`, then
`[INST]`/`[/INST]`, strip, then collapse newline runs. -/
def clean_llama_output (raw : List Char) : List Char :=
  collapseNl (pyStrip (removeInstTokens (removeSTokens raw)))

/-- The prompt template text before the interpolated topic, after the leading
newline that `.strip()` removes. -/
def promptPre : List Char :=
  ("<s>[INST]\nYou are a professional blog writer.\n\nWrite a clear, concise, and well-structured 200-word blog post on the topic: \"").toList

/-- The prompt template text after the interpolated topic, without the final
newline that `.strip()` removes. -/
def promptSuf : List Char :=
  ("\".\nFormat it using:\n- A title in heading style\n- Subheadings for sections\n- Bullet points where applicable\nAvoid repeating the prompt or adding instructional tokens. End the blog naturally.\n[/INST]").toList

/-- Embedding of `build_prompt`: the f-string template with the topic
interpolated, then `.strip()`. -/
def build_prompt (topic : List Char) : List Char :=
  pyStrip (('\n' :: promptPre) ++ topic ++ (promptSuf ++ ['\n']))

/-- Number of positions of `l` at which `pat` occurs as a contiguous
substring (overlapping occurrences counted separately). -/
def countOcc (pat : List Char) : List Char → Nat
  | [] => if pat.isEmpty then 1 else 0
  | c :: rest => (if List.isPrefixOf pat (c :: rest) then 1 else 0) + countOcc pat rest

/-- Outcome of the `json.loads(event.get("body", "\x7b\x7d"))` step followed by
`body.get("topic")`: either decoding raises, or it yields a body whose
`topic` field is a string or absent. -/
inductive ParseOutcome where
  | malformed
  | parsed (topic : Option (List Char))
deriving DecidableEq

/-- Outcome of the `bedrock_runtime.invoke_model` call inside `generate_blog`:
either some step of the call raises, or it returns a response body whose
`generation` field is a string or absent. -/
inductive BedrockOutcome where
  | failure
  | success (generation : Option (List Char))
deriving DecidableEq

/-- The blob store: the list of (key, content) objects it holds, most recent
first. -/
structure S3State where
  objects : List (List Char × List Char)
deriving DecidableEq

/-- The response envelope returned by the handler. -/
structure Response where
  statusCode : Nat
  headers : List (List Char × List Char)
  body : List Char
deriving DecidableEq

/-- Result of one handler invocation: the response, the store afterwards, and
whether the two external calls were reached. -/
structure HandlerOut where
  response : Response
  store : S3State
  bedrockCalled : Bool
  s3Called : Bool
deriving DecidableEq

/-- The header set `\x7b"Access-Control-Allow-Origin": "*"\x7d` of the 400
response. -/
def corsBase : List (List Char × List Char) :=
  [(("Access-Control-Allow-Origin").toList, ("*").toList)]

/-- The header set of the 200 and 500 responses, adding
`"Access-Control-Allow-Headers": "Content-Type"`. -/
def corsFull : List (List Char × List Char) :=
  corsBase ++ [(("Access-Control-Allow-Headers").toList, ("Content-Type").toList)]

/-- Body `json.dumps` produces for the missing-topic error. -/
def missingTopicBody : List Char :=
  ("\x7b\"error\": \"Missing \x27topic\x27 in request body\"\x7d").toList

/-- Body `json.dumps` produces for the short-or-empty-generation error. -/
def genFailedBody : List Char :=
  ("\x7b\"error\": \"Blog generation failed or returned empty content.\"\x7d").toList

/-- Body `json.dumps` produces for the generic internal error. -/
def internalErrorBody : List Char :=
  ("\x7b\"error\": \"Internal server error.\"\x7d").toList

/-- The 400 missing-topic response of `lambda_handler`. -/
def missingTopicResponse : Response :=
  { statusCode := 400, headers := corsBase, body := missingTopicBody }

/-- The 500 short-generation response of `lambda_handler`. -/
def genFailedResponse : Response :=
  { statusCode := 500, headers := corsFull, body := genFailedBody }

/-- The 500 response produced by the outer `except` of `lambda_handler`. -/
def internalErrorResponse : Response :=
  { statusCode := 500, headers := corsFull, body := internalErrorBody }

/-- The S3 key `blog_output/<timestamp>.txt` computed by `save_to_s3`, with
the formatted timestamp as a parameter. -/
def s3KeyFor (ts : List Char) : List Char :=
  ("blog_output/").toList ++ ts ++ (".txt").toList

/-- The `s3://<bucket>/<key>` path returned by `save_to_s3`. -/
def s3PathFor (ts : List Char) : List Char :=
  ("s3://aws-bedrock-stuffs/").toList ++ s3KeyFor ts

/-- Embedding of `save_to_s3`: on a successful `put_object` the store gains
the object and the S3 path is returned; on failure the exception propagates
(`Except.error`) and the store is unchanged. -/
def save_to_s3 (ts : List Char) (s3Ok : Bool) (store : S3State) (content : List Char) :
    Except Unit (S3State × List Char) :=
  if s3Ok then
    Except.ok (⟨(s3KeyFor ts, content) :: store.objects⟩, s3PathFor ts)
  else Except.error ()

/-- Embedding of `generate_blog`: builds the prompt, invokes the model; any
exception in the `try` block yields `""`; on success the `generation` field
(absent treated as `""`) is cleaned. -/
def generate_blog (topic : List Char) (outcome : BedrockOutcome) : List Char :=
  let _prompt := build_prompt topic
  match outcome with
  | BedrockOutcome.failure => []
  | BedrockOutcome.success g => clean_llama_output (g.getD [])

/-- Embedding of `lambda_handler`, parameterised by the outcomes of body
parsing, the generation call, and the store write, and by the formatted
timestamp. -/
def lambda_handler (parse : ParseOutcome) (gen : BedrockOutcome) (s3Ok : Bool)
    (ts : List Char) (store : S3State) : HandlerOut :=
  match parse with
  | ParseOutcome.malformed =>
      { response := internalErrorResponse, store := store,
        bedrockCalled := false, s3Called := false }
  | ParseOutcome.parsed none =>
      { response := missingTopicResponse, store := store,
        bedrockCalled := false, s3Called := false }
  | ParseOutcome.parsed (some topic) =>
      if topic = [] then
        { response := missingTopicResponse, store := store,
          bedrockCalled := false, s3Called := false }
      else
        let blog := generate_blog topic gen
        if blog = [] ∨ blog.length < 100 then
          { response := genFailedResponse, store := store,
            bedrockCalled := true, s3Called := false }
        else
          match save_to_s3 ts s3Ok store blog with
          | Except.ok (store2, _path) =>
              { response := { statusCode := 200, headers := corsFull, body := blog },
                store := store2, bedrockCalled := true, s3Called := true }
          | Except.error _ =>
              { response := internalErrorResponse, store := store,
                bedrockCalled := true, s3Called := true }

set_option maxRecDepth 4000

example : clean_llama_output (("<s>hi there</s>").toList) = ("hi there").toList := by decide

example : collapseNl (("a\n\n\n\nb").toList) = ("a\n\nb").toList := by decide

/-- The three-newline pattern forbidden in sanitizer output. -/
def nl3 : List Char := ['\n', '\n', '\n']

/-- Decidable check that a string contains a run of three consecutive
newlines. -/
def hasTripleNl (l : List Char) : Bool := decide (nl3 <:+: l)

theorem prefix_append_cons_split {t a b : List Char} {c : Char}
    (h : t <+: a ++ c :: b) (hc : c ∉ t) : t <+: a := by
  induction a generalizing t with
  | nil =>
      cases t with
      | nil => exact List.nil_prefix
      | cons x t2 =>
          rcases h with ⟨u, hu⟩
          simp only [List.nil_append, List.cons_append, List.cons.injEq] at hu
          exact absurd (hu.1 ▸ List.mem_cons_self x t2) (hu.1 ▸ hc)
  | cons x a2 ih =>
      cases t with
      | nil => exact List.nil_prefix
      | cons y t2 =>
          rcases h with ⟨u, hu⟩
          simp only [List.cons_append, List.cons.injEq] at hu
          rcases hu with ⟨rfl, hu2⟩
          have ht2 : t2 <+: a2 ++ c :: b := ⟨u, hu2⟩
          have : t2 <+: a2 := ih ht2 (fun hm => hc (List.mem_cons_of_mem _ hm))
          exact (List.prefix_cons_inj y).mpr this

theorem infix_append_cons_split {t a b : List Char} {c : Char}
    (h : t <:+: a ++ c :: b) (hc : c ∉ t) : t <:+: a ∨ t <:+: b := by
  induction a generalizing t with
  | nil =>
      rw [List.nil_append, List.infix_cons_iff] at h
      rcases h with h | h
      · left
        have := prefix_append_cons_split (a := []) (by simpa using h) hc
        simpa using this.isInfix
      · exact Or.inr h
  | cons x a2 ih =>
      rw [List.cons_append, List.infix_cons_iff] at h
      rcases h with h | h
      · left
        exact (prefix_append_cons_split (a := x :: a2) (by simpa using h) hc).isInfix
      · rcases ih h hc with h2 | h2
        · exact Or.inl (List.infix_cons h2)
        · exact Or.inr h2

theorem emitNl_length_le (n : Nat) : (emitNl n).length ≤ 2 := by
  unfold emitNl
  split
  · simp
  · simp only [List.length_replicate]
    omega

theorem not_nl3_infix_emitNl (n : Nat) : ¬ (nl3 <:+: emitNl n) := by
  intro h
  have h1 := h.length_le
  have h2 := emitNl_length_le n
  simp [nl3] at h1
  omega

theorem not_nl3_infix_collapseAux :
    ∀ (pending : Nat) (l : List Char), ¬ (nl3 <:+: collapseAux pending l) := by
  intro pending l
  induction pending, l using collapseAux.induct with
  | case1 p => exact not_nl3_infix_emitNl p
  | case2 p rest ih => exact ih
  | case3 p c rest hc ih =>
      intro h
      simp only [collapseAux] at h
      have hcm : c ∉ nl3 := by
        intro hm
        simp [nl3] at hm
        exact hc hm
      rcases infix_append_cons_split h hcm with h2 | h2
      · exact not_nl3_infix_emitNl p h2
      · exact ih h2

theorem collapseAux_eq_self :
    ∀ (pending : Nat) (l : List Char), pending ≤ 2 →
      ¬ (nl3 <:+: (List.replicate pending '\n' ++ l)) →
      collapseAux pending l = List.replicate pending '\n' ++ l := by
  intro pending l
  induction pending, l using collapseAux.induct with
  | case1 p =>
      intro hp _
      simp only [collapseAux, emitNl, List.append_nil]
      rw [if_neg (by omega)]
  | case2 p rest ih =>
      intro hp h3
      have hrepl : List.replicate p '\n' ++ '\n' :: rest =
          List.replicate (p + 1) '\n' ++ rest := by
        rw [List.replicate_succ', List.append_assoc]
        simp
      have hp1 : p + 1 ≤ 2 := by
        by_contra hgt
        have hp2 : p = 2 := by omega
        apply h3
        subst hp2
        exact ⟨[], rest, by simp [nl3, List.replicate]⟩
      simp only [collapseAux]
      rw [ih hp1 (by rw [hrepl] at h3; exact h3), hrepl]
  | case3 p c rest hc ih =>
      intro hp h3
      have h3r : ¬ (nl3 <:+: rest) := by
        intro h
        exact h3 (h.trans ⟨List.replicate p '\n' ++ [c], [], by simp⟩)
      simp only [collapseAux]
      rw [ih (by omega) (by simpa using h3r)]
      simp only [emitNl]
      rw [if_neg (by omega)]
      simp

theorem collapseNl_collapseNl (l : List Char) :
    collapseNl (collapseNl l) = collapseNl l := by
  have h3 := not_nl3_infix_collapseAux 0 l
  have := collapseAux_eq_self 0 (collapseNl l) (by omega) (by simpa using h3)
  simpa [collapseNl] using this

theorem lstrip_head_not_ws :
    ∀ (l : List Char) (c : Char), (lstrip l).head? = some c → isPyWhitespace c = false := by
  intro l
  induction l with
  | nil => intro c h; simp [lstrip] at h
  | cons x xs ih =>
      intro c h
      by_cases hx : isPyWhitespace x
      · rw [lstrip, if_pos hx] at h
        exact ih c h
      · rw [lstrip, if_neg hx] at h
        simp at h
        subst h
        simpa using hx

theorem lstrip_eq_self_of_head {l : List Char} {c : Char}
    (h : l.head? = some c) (hc : isPyWhitespace c = false) : lstrip l = l := by
  cases l with
  | nil => rfl
  | cons x xs =>
      simp at h
      rw [lstrip, if_neg (by rw [h]; simp [hc])]

theorem rstrip_eq_self_of_getLast {l : List Char} {c : Char}
    (h : l.getLast? = some c) (hc : isPyWhitespace c = false) : rstrip l = l := by
  have hrev : l.reverse.head? = some c := by rw [List.head?_reverse]; exact h
  rw [rstrip, lstrip_eq_self_of_head hrev hc, List.reverse_reverse]

theorem rstrip_prefix_self (l : List Char) : rstrip l <+: l := by
  have h1 : lstrip l.reverse <:+ l.reverse := by
    induction l.reverse with
    | nil => simp [lstrip]
    | cons x xs ih =>
        rw [lstrip]
        split
        · exact ih.trans (List.suffix_cons x xs)
        · exact List.suffix_refl _
  rw [rstrip]
  rw [← List.reverse_suffix]
  simpa using h1

theorem prefix_head_eq {p l : List Char} {c : Char} (h : p <+: l)
    (hp : p.head? = some c) : l.head? = some c := by
  rcases h with ⟨u, rfl⟩
  cases p with
  | nil => simp at hp
  | cons x xs => simp at hp ⊢; exact hp

theorem getLast?_rstrip_not_ws {l : List Char} {c : Char}
    (h : (rstrip l).getLast? = some c) : isPyWhitespace c = false := by
  rw [rstrip] at h
  have : (lstrip l.reverse).head? = some c := by
    rw [← List.head?_reverse, List.reverse_reverse] at h
    exact h
  exact lstrip_head_not_ws _ _ this

theorem head?_collapseAux_zero {m : List Char} {c : Char}
    (h : m.head? = some c) (hc : ¬ c = '\n') :
    (collapseAux 0 m).head? = some c := by
  cases m with
  | nil => simp at h
  | cons x xs =>
      simp at h
      subst h
      rw [collapseAux.eq_3 0 x xs (fun he => hc he)]
      simp [emitNl]

theorem getLast?_collapseAux {m : List Char} {c : Char}
    (h : m.getLast? = some c) (hc : ¬ c = '\n') :
    ∀ pending, (collapseAux pending m).getLast? = some c := by
  induction m with
  | nil => simp at h
  | cons x xs ih =>
      intro pending
      cases xs with
      | nil =>
          simp at h
          rw [collapseAux.eq_3 pending x [] (fun he => hc (h ▸ he))]
          have hz : collapseAux 0 ([] : List Char) = [] := by
            simp [collapseAux, emitNl]
          rw [hz, List.getLast?_concat]
          rw [h]
      | cons y ys =>
          have htail : (y :: ys).getLast? = some c := by
            rw [← h, List.getLast?_cons_cons]
          by_cases hx : x = '\n'
          · subst hx
            rw [collapseAux.eq_2]
            exact ih htail _
          · rw [collapseAux.eq_3 pending x (y :: ys) (fun he => hx he)]
            rw [List.getLast?_append_cons]
            have hrec := ih htail 0
            have hne : collapseAux 0 (y :: ys) ≠ [] := by
              intro hnil
              rw [hnil] at hrec
              simp at hrec
            calc (x :: collapseAux 0 (y :: ys)).getLast?
                = ([x] ++ collapseAux 0 (y :: ys)).getLast? := by simp
              _ = (collapseAux 0 (y :: ys)).getLast? :=
                    List.getLast?_append_of_ne_nil [x] hne
              _ = some c := hrec

theorem ne_nl_of_not_ws {c : Char} (hc : isPyWhitespace c = false) : ¬ c = '\n' := by
  intro he
  subst he
  simp [isPyWhitespace] at hc

theorem pyStrip_collapseNl_pyStrip (z : List Char) :
    pyStrip (collapseNl (pyStrip z)) = collapseNl (pyStrip z) := by
  rcases hm : pyStrip z with _ | ⟨c, r⟩
  · simp [collapseNl, collapseAux, emitNl, pyStrip, lstrip, rstrip]
  · have hmne : pyStrip z ≠ [] := by rw [hm]; simp
    have hhead : (pyStrip z).head? = some c := by rw [hm]; rfl
    have hcws : isPyWhitespace c = false := by
      have hpre : pyStrip z <+: lstrip z := rstrip_prefix_self (lstrip z)
      have := prefix_head_eq hpre hhead
      exact lstrip_head_not_ws _ _ this
    have hgl : ∃ d, (pyStrip z).getLast? = some d :=
      ⟨_, List.getLast?_eq_getLast_of_ne_nil hmne⟩
    rcases hgl with ⟨d, hd⟩
    have hdws : isPyWhitespace d = false := getLast?_rstrip_not_ws (l := lstrip z) hd
    have hy1 : (collapseNl (pyStrip z)).head? = some c := by
      rw [collapseNl]
      exact head?_collapseAux_zero hhead (ne_nl_of_not_ws hcws)
    have hy2 : (collapseNl (pyStrip z)).getLast? = some d := by
      rw [collapseNl]
      exact getLast?_collapseAux hd (ne_nl_of_not_ws hdws) 0
    rw [← hm] at *
    rw [pyStrip, lstrip_eq_self_of_head hy1 hcws, rstrip_eq_self_of_getLast hy2 hdws]

theorem removeSTokens_eq_self (l : List Char)
    (h1 : ¬ (['<', '/', 's', '>'] <:+: l)) (h2 : ¬ (['<', 's', '>'] <:+: l)) :
    removeSTokens l = l := by
  induction l using removeSTokens.induct with
  | case1 rest ih =>
      exact absurd ⟨[], rest, rfl⟩ h1
  | case2 rest ih =>
      exact absurd ⟨[], rest, rfl⟩ h2
  | case3 c rest hn1 hn2 ih =>
      have h1r : ¬ (['<', '/', 's', '>'] <:+: rest) := fun h => h1 (List.infix_cons h)
      have h2r : ¬ (['<', 's', '>'] <:+: rest) := fun h => h2 (List.infix_cons h)
      simp only [removeSTokens]
      rw [ih h1r h2r]
  | case4 => rfl

theorem removeInstTokens_eq_self (l : List Char)
    (h1 : ¬ (['[', '/', 'I', 'N', 'S', 'T', ']'] <:+: l))
    (h2 : ¬ (['[', 'I', 'N', 'S', 'T', ']'] <:+: l)) :
    removeInstTokens l = l := by
  induction l using removeInstTokens.induct with
  | case1 rest ih =>
      exact absurd ⟨[], rest, rfl⟩ h1
  | case2 rest ih =>
      exact absurd ⟨[], rest, rfl⟩ h2
  | case3 c rest hn1 hn2 ih =>
      have h1r : ¬ (['[', '/', 'I', 'N', 'S', 'T', ']'] <:+: rest) :=
        fun h => h1 (List.infix_cons h)
      have h2r : ¬ (['[', 'I', 'N', 'S', 'T', ']'] <:+: rest) :=
        fun h => h2 (List.infix_cons h)
      simp only [removeInstTokens]
      rw [ih h1r h2r]
  | case4 => rfl

theorem lstrip_cons_nl (m : List Char) : lstrip ('\n' :: m) = lstrip m := by
  simp [lstrip, isPyWhitespace]

theorem rstrip_append_nl (m : List Char) : rstrip (m ++ ['\n']) = rstrip m := by
  rw [rstrip, rstrip, List.reverse_append]
  simp [lstrip_cons_nl]

theorem build_prompt_eq (topic : List Char) :
    build_prompt topic = promptPre ++ topic ++ promptSuf := by
  have hshape : ('\n' :: promptPre) ++ topic ++ (promptSuf ++ ['\n']) =
      '\n' :: ((promptPre ++ topic ++ promptSuf) ++ ['\n']) := by
    simp [List.append_assoc]
  rw [build_prompt, hshape, pyStrip, lstrip_cons_nl]
  have hhead : ((promptPre ++ topic ++ promptSuf) ++ ['\n']).head? = some '<' := by
    apply prefix_head_eq (List.prefix_append _ _)
    apply prefix_head_eq (List.prefix_append _ _)
    apply prefix_head_eq (List.prefix_append _ _)
    rfl
  rw [lstrip_eq_self_of_head hhead (by decide), rstrip_append_nl]
  have hlast : (promptPre ++ topic ++ promptSuf).getLast? = some ']' := by
    rw [List.getLast?_append_of_ne_nil _ (by decide : promptSuf ≠ [])]
    decide
  exact rstrip_eq_self_of_getLast hlast (by decide)

/-- Claim C6: the generation step never raises past its boundary: a failed
model invocation yields the empty string, and a response without the
`generation` field is treated exactly like one carrying the empty string. -/
theorem generate_blog_failure_yields_empty (topic : List Char) :
    generate_blog topic BedrockOutcome.failure = [] ∧
    generate_blog topic (BedrockOutcome.success none) = [] ∧
    generate_blog topic (BedrockOutcome.success none) =
      generate_blog topic (BedrockOutcome.success (some [])) :=
  ⟨rfl, rfl, rfl⟩

/-- Claim C9: for every input, the sanitizer output contains no run of three
or more consecutive newline characters. -/
theorem sanitizer_output_no_triple_newline (raw : List Char) :
    hasTripleNl (clean_llama_output raw) = false :=
  decide_eq_false (not_nl3_infix_collapseAux 0 _)

/-- Claim C4, counterexample: the sanitizer is not idempotent as claimed.
Removing the tokens of `<<s>s>` splices together a fresh `<s>` token, which a
second pass then removes. -/
theorem sanitize_not_idempotent_cx :
    clean_llama_output (clean_llama_output (("<<s>s>").toList)) ≠
      clean_llama_output (("<<s>s>").toList) := by
  decide

/-- Claim C4, amended: the sanitizer is idempotent on every input whose
sanitized output contains no residual delimiter token (`<s>`, `</s>`,
`[INST]`, `[/INST]`); in general a first pass may splice together new
delimiter tokens, which a second pass removes. -/
theorem sanitize_idempotent_on_token_free (x : List Char)
    (h1 : ¬ (['<', '/', 's', '>'] <:+: clean_llama_output x))
    (h2 : ¬ (['<', 's', '>'] <:+: clean_llama_output x))
    (h3 : ¬ (['[', '/', 'I', 'N', 'S', 'T', ']'] <:+: clean_llama_output x))
    (h4 : ¬ (['[', 'I', 'N', 'S', 'T', ']'] <:+: clean_llama_output x)) :
    clean_llama_output (clean_llama_output x) = clean_llama_output x := by
  have hy : clean_llama_output (clean_llama_output x) =
      collapseNl (pyStrip (removeInstTokens (removeSTokens (clean_llama_output x)))) := rfl
  rw [hy, removeSTokens_eq_self _ h1 h2, removeInstTokens_eq_self _ h3 h4]
  show collapseNl (pyStrip (collapseNl (pyStrip (removeInstTokens (removeSTokens x))))) = _
  rw [pyStrip_collapseNl_pyStrip]
  exact collapseNl_collapseNl _

/-- Witness for the amended claim C4 at a concrete token-free input. -/
theorem sanitize_idempotent_on_token_free_witness :
    (¬ (['<', '/', 's', '>'] <:+: clean_llama_output (("ok\n\n\n\nfine").toList))) ∧
    (¬ (['<', 's', '>'] <:+: clean_llama_output (("ok\n\n\n\nfine").toList))) ∧
    (¬ (['[', '/', 'I', 'N', 'S', 'T', ']'] <:+: clean_llama_output (("ok\n\n\n\nfine").toList))) ∧
    (¬ (['[', 'I', 'N', 'S', 'T', ']'] <:+: clean_llama_output (("ok\n\n\n\nfine").toList))) ∧
    clean_llama_output (clean_llama_output (("ok\n\n\n\nfine").toList)) =
      clean_llama_output (("ok\n\n\n\nfine").toList) :=
  ⟨by decide, by decide, by decide, by decide,
    sanitize_idempotent_on_token_free (("ok\n\n\n\nfine").toList)
      (by decide) (by decide) (by decide) (by decide)⟩

/-- Claim C5, counterexample: the prompt does not contain the topic exactly
once for every non-empty topic; the one-character topic `a` also occurs in
the fixed template text. -/
theorem prompt_topic_not_exactly_once_cx :
    countOcc (("a").toList) (build_prompt (("a").toList)) ≠ 1 := by
  decide

/-- Claim C5, amended: the prompt produced by `build_prompt` contains every
non-empty topic verbatim as a substring at least once (between the fixed
template prefix and suffix). -/
theorem prompt_contains_topic (topic : List Char) (htopic : topic ≠ []) :
    topic <:+: build_prompt topic := by
  rw [build_prompt_eq]
  exact ⟨promptPre, promptSuf, by simp⟩

/-- Witness for the amended claim C5 at a concrete topic. -/
theorem prompt_contains_topic_witness :
    (("q").toList ≠ []) ∧ (("q").toList <:+: build_prompt (("q").toList)) :=
  ⟨by decide, prompt_contains_topic (("q").toList) (by decide)⟩

/-- Claim C1: for a valid body with non-empty topic, when the sanitized
generated text has length at least 100, the handler returns status 200 with
the sanitized text itself as body, and the store gains an artifact whose
content is that same text. -/
theorem valid_generation_persists_and_returns_text
    (topic raw ts : List Char) (store : S3State)
    (htopic : topic ≠ [])
    (hlen : 100 ≤ (clean_llama_output raw).length) :
    lambda_handler (ParseOutcome.parsed (some topic)) (BedrockOutcome.success (some raw))
        true ts store =
      { response := { statusCode := 200, headers := corsFull, body := clean_llama_output raw },
        store := ⟨(s3KeyFor ts, clean_llama_output raw) :: store.objects⟩,
        bedrockCalled := true, s3Called := true } ∧
    (s3KeyFor ts, clean_llama_output raw) ∈
      (lambda_handler (ParseOutcome.parsed (some topic)) (BedrockOutcome.success (some raw))
        true ts store).store.objects := by
  have hblog : generate_blog topic (BedrockOutcome.success (some raw)) =
      clean_llama_output raw := rfl
  have hbne : clean_llama_output raw ≠ [] := by
    intro hnil
    rw [hnil] at hlen
    simp at hlen
  have hnlt : ¬ ((clean_llama_output raw).length < 100) := by omega
  refine ⟨?_, ?_⟩ <;>
    simp [lambda_handler, htopic, hblog, hbne, hnlt, save_to_s3]

/-- Witness for claim C1 at a concrete topic, generation and store. -/
theorem valid_generation_persists_and_returns_text_witness :
    (("t").toList ≠ []) ∧
    (100 ≤ (clean_llama_output (List.replicate 120 'a')).length) ∧
    (lambda_handler (ParseOutcome.parsed (some (("t").toList)))
        (BedrockOutcome.success (some (List.replicate 120 'a'))) true [] ⟨[]⟩ =
      { response := { statusCode := 200, headers := corsFull,
                      body := clean_llama_output (List.replicate 120 'a') },
        store := ⟨[(s3KeyFor [], clean_llama_output (List.replicate 120 'a'))]⟩,
        bedrockCalled := true, s3Called := true } ∧
      (s3KeyFor [], clean_llama_output (List.replicate 120 'a')) ∈
        (lambda_handler (ParseOutcome.parsed (some (("t").toList)))
          (BedrockOutcome.success (some (List.replicate 120 'a'))) true [] ⟨[]⟩).store.objects) :=
  ⟨by decide, by decide,
    valid_generation_persists_and_returns_text (("t").toList) (List.replicate 120 'a')
      [] ⟨[]⟩ (by decide) (by decide)⟩

/-- Claim C2: when the sanitized generated text is shorter than 100
characters (in particular the empty string after a failed generation), the
handler returns status 500 with the generation-failed error body, and the
store write is never invoked, leaving the store unchanged. -/
theorem short_generation_returns_500_and_skips_store
    (topic ts : List Char) (gen : BedrockOutcome) (s3Ok : Bool) (store : S3State)
    (htopic : topic ≠ [])
    (hlen : (generate_blog topic gen).length < 100) :
    lambda_handler (ParseOutcome.parsed (some topic)) gen s3Ok ts store =
      { response := genFailedResponse, store := store,
        bedrockCalled := true, s3Called := false } := by
  have hcond : generate_blog topic gen = [] ∨ (generate_blog topic gen).length < 100 :=
    Or.inr hlen
  simp [lambda_handler, htopic, hcond]

/-- Witness for claim C2 with a failed generation. -/
theorem short_generation_returns_500_and_skips_store_witness :
    (("t").toList ≠ []) ∧
    ((generate_blog (("t").toList) BedrockOutcome.failure).length < 100) ∧
    (lambda_handler (ParseOutcome.parsed (some (("t").toList))) BedrockOutcome.failure
        true [] ⟨[]⟩ =
      { response := genFailedResponse, store := ⟨[]⟩,
        bedrockCalled := true, s3Called := false }) :=
  ⟨by decide, by decide,
    short_generation_returns_500_and_skips_store (("t").toList) [] BedrockOutcome.failure
      true ⟨[]⟩ (by decide) (by decide)⟩

/-- Claim C3: when the body decodes but the topic field is missing or the
empty string, the handler returns status 400 with the missing-topic error
body, and neither the generation call nor the store write is reached. -/
theorem missing_or_empty_topic_returns_400
    (t? : Option (List Char)) (gen : BedrockOutcome) (s3Ok : Bool)
    (ts : List Char) (store : S3State)
    (ht : t? = none ∨ t? = some []) :
    lambda_handler (ParseOutcome.parsed t?) gen s3Ok ts store =
      { response := missingTopicResponse, store := store,
        bedrockCalled := false, s3Called := false } := by
  rcases ht with rfl | rfl
  · rfl
  · rfl

/-- Witness for claim C3 with the topic field absent. -/
theorem missing_or_empty_topic_returns_400_witness :
    ((none : Option (List Char)) = none ∨ (none : Option (List Char)) = some []) ∧
    (lambda_handler (ParseOutcome.parsed none) BedrockOutcome.failure true [] ⟨[]⟩ =
      { response := missingTopicResponse, store := ⟨[]⟩,
        bedrockCalled := false, s3Called := false }) :=
  ⟨Or.inl rfl,
    missing_or_empty_topic_returns_400 none BedrockOutcome.failure true [] ⟨[]⟩ (Or.inl rfl)⟩

/-- Claim C7: when the inbound body fails to decode, the handler returns
status 500 with the generic internal error body, not a 400-class client
error. -/
theorem malformed_body_returns_internal_error
    (gen : BedrockOutcome) (s3Ok : Bool) (ts : List Char) (store : S3State) :
    lambda_handler ParseOutcome.malformed gen s3Ok ts store =
      { response := internalErrorResponse, store := store,
        bedrockCalled := false, s3Called := false } ∧
    (lambda_handler ParseOutcome.malformed gen s3Ok ts store).response.statusCode = 500 ∧
    (lambda_handler ParseOutcome.malformed gen s3Ok ts store).response.statusCode ≠ 400 :=
  ⟨rfl, rfl, by simp [lambda_handler, internalErrorResponse]⟩

/-- Claim C8: when generation yields length-valid sanitized text but the
store write fails, the handler returns status 500 with the generic internal
error body and the store is unchanged: the generation result is discarded
and nothing is retried. -/
theorem persistence_failure_returns_500_discards
    (topic ts : List Char) (gen : BedrockOutcome) (store : S3State)
    (htopic : topic ≠ [])
    (hlen : 100 ≤ (generate_blog topic gen).length) :
    lambda_handler (ParseOutcome.parsed (some topic)) gen false ts store =
      { response := internalErrorResponse, store := store,
        bedrockCalled := true, s3Called := true } := by
  have hbne : generate_blog topic gen ≠ [] := by
    intro hnil
    rw [hnil] at hlen
    simp at hlen
  have hnlt : ¬ ((generate_blog topic gen).length < 100) := by omega
  simp [lambda_handler, htopic, hbne, hnlt, save_to_s3]

/-- Witness for claim C8 at a concrete failing store. -/
theorem persistence_failure_returns_500_discards_witness :
    (("t").toList ≠ []) ∧
    (100 ≤ (generate_blog (("t").toList)
        (BedrockOutcome.success (some (List.replicate 120 'a')))).length) ∧
    (lambda_handler (ParseOutcome.parsed (some (("t").toList)))
        (BedrockOutcome.success (some (List.replicate 120 'a'))) false [] ⟨[]⟩ =
      { response := internalErrorResponse, store := ⟨[]⟩,
        bedrockCalled := true, s3Called := true }) :=
  ⟨by decide, by decide,
    persistence_failure_returns_500_discards (("t").toList) []
      (BedrockOutcome.success (some (List.replicate 120 'a'))) ⟨[]⟩ (by decide) (by decide)⟩

/-- Claim C10: a non-empty topic consisting only of whitespace passes the
topic validation: the handler never returns the 400 missing-topic response
for it and instead reaches the generation step. -/
theorem whitespace_topic_accepted
    (topic ts : List Char) (gen : BedrockOutcome) (s3Ok : Bool) (store : S3State)
    (hws : ∀ c ∈ topic, isPyWhitespace c = true)
    (htopic : topic ≠ []) :
    (lambda_handler (ParseOutcome.parsed (some topic)) gen s3Ok ts store).bedrockCalled =
      true ∧
    (lambda_handler (ParseOutcome.parsed (some topic)) gen s3Ok ts store).response.statusCode
      ≠ 400 := by
  by_cases hcond : generate_blog topic gen = [] ∨ (generate_blog topic gen).length < 100
  · constructor <;> simp [lambda_handler, htopic, hcond, genFailedResponse]
  · cases s3Ok
    · constructor <;>
        simp [lambda_handler, htopic, hcond, save_to_s3, internalErrorResponse]
    · constructor <;> simp [lambda_handler, htopic, hcond, save_to_s3]

/-- Witness for claim C10 at the one-character whitespace topic. -/
theorem whitespace_topic_accepted_witness :
    (∀ c ∈ [' '], isPyWhitespace c = true) ∧ ([' '] ≠ ([] : List Char)) ∧
    ((lambda_handler (ParseOutcome.parsed (some [' '])) BedrockOutcome.failure true []
        ⟨[]⟩).bedrockCalled = true ∧
     (lambda_handler (ParseOutcome.parsed (some [' '])) BedrockOutcome.failure true []
        ⟨[]⟩).response.statusCode ≠ 400) :=
  ⟨by decide, by decide,
    whitespace_topic_accepted [' '] [] BedrockOutcome.failure true ⟨[]⟩
      (by decide) (by decide)⟩

end BlogGen
